import Mathlib

/-!
Verification development for the TentacleSystem repository (procedural
appendage-chain simulation).

The repository ships three near-identical demo variants:

* `src/unnamed/part_000` — "Heptapod_A": a `Leg` class with a
  threshold-triggered stepping state machine and a 3-iteration
  half-correction relaxation solver, plus a body-pursuit loop.
* `src/src/app/page.tsx`, first document — "Creeping_System": a `Tentacle`
  class with a shared gait phase and a full-correction relaxation solver.
* `src/src/app/page.tsx`, second document — "Tentacle System": a `Tentacle`
  class whose `updateReaching` method uses a rigid (exact-length)
  normalization pass, plus a spring-damper body pursuit.

The embedding below works over `ℚ`.  The source is JavaScript floating-point
code; every arithmetic constant in it (0.5, 0.1, 0.85, ...) is an exact
rational, while the transcendental library calls (`Math.sqrt`, `Math.cos`,
`Math.sin`, `Math.atan2`, `Math.PI`) are passed in as function/value
parameters so that the definitions stay executable.  Theorems that depend on
analytic facts about those functions state them as satisfiable hypotheses
(e.g. the Pythagorean identity); concrete evaluations instantiate the
parameters with rational stand-ins that agree with the true functions at
every point of the evaluated trace.

Presentational fields of the source classes (`color`, `index`, canvas
drawing) are out of scope and omitted.
-/

/-- A 2D point, the `Segment`/`Point` data of all three variants
(`part_000` lines 8-17, `page.tsx` lines 8-17 and 310-322; the second
variant's unused-in-`updateReaching` velocity fields `vx`,`vy` are carried
separately where needed). -/
structure Pt where
  x : ℚ
  y : ℚ
deriving DecidableEq, Repr

/-- Linear interpolation helper, `function lerp(a, b, t)` of all variants
(`part_000` lines 195-197, `page.tsx` lines 101-103 and 491-493). -/
def lerp (a b t : ℚ) : ℚ :=
  a + (b - a) * t

/-- JavaScript's `x || y` on numbers, as used in the guards
`Math.sqrt(...) || 1` and `Math.sqrt(...) || 0.01`: if the left operand is
`0` (falsy) the right operand is substituted.  `NaN` does not arise because
the guarded value is a square root of a sum of squares. -/
def jsOr (a b : ℚ) : ℚ :=
  if a = 0 then b else a

/-- Rational stand-in for `Math.sqrt`, exact on every rational that is the
square of a rational (numerator and denominator of the reduced fraction both
perfect squares).  All concrete traces evaluated in this file only apply it
to such squares, where it agrees with the real square root. -/
def ratSqrt (q : ℚ) : ℚ :=
  if q ≤ 0 then 0 else (Nat.sqrt q.num.toNat : ℚ) / (Nat.sqrt q.den : ℚ)

/-- Distance helper `function dist(x1, y1, x2, y2)` of the second `page.tsx`
variant (lines 487-489), with the square root passed as a parameter. -/
def distQ (sq : ℚ → ℚ) (x1 y1 x2 y2 : ℚ) : ℚ :=
  sq ((x2 - x1) * (x2 - x1) + (y2 - y1) * (y2 - y1))

/-- Overwrite the first joint of a chain (`segments[0].x = ...;
segments[0].y = ...` in the sources).  On the empty chain the source would
crash; we leave it empty (all constructed chains are nonempty). -/
def pinHead (p : Pt) : List Pt → List Pt
  | [] => []
  | _ :: t => p :: t

/-- Overwrite the last joint of a chain (`segments[last].x = ...`). -/
def pinLast (p : Pt) (l : List Pt) : List Pt :=
  (pinHead p l.reverse).reverse

/-- Last element of a chain with a default, `segments[segments.length - 1]`. -/
def lastD (l : List Pt) : Pt :=
  l.getLast?.getD ⟨0, 0⟩

/-- Sequential in-place sweep: starting from an already-final neighbour
`prev`, each joint is replaced by `f prev curr` and becomes the neighbour of
the next one.  This is the loop
`for (i = ...) { curr = f(neighbour, curr) }` where the neighbour is the
joint updated in the previous iteration. -/
def chainScan (f : Pt → Pt → Pt) : Pt → List Pt → List Pt
  | _, [] => []
  | prev, c :: rest =>
    let c' := f prev c
    c' :: chainScan f c' rest

/-- Forward sweep `for (i = 1; i <= last; i++)`: joint 0 is left untouched
and acts as the first neighbour. -/
def sweepFwd (f : Pt → Pt → Pt) : List Pt → List Pt
  | [] => []
  | h :: t => h :: chainScan f h t

/-- Backward sweep `for (i = last - 1; i >= 0; i--)`: the last joint is left
untouched and acts as the first neighbour; every other joint, including
joint 0, is updated using its (already updated) successor. -/
def sweepBwd (f : Pt → Pt → Pt) (l : List Pt) : List Pt :=
  (sweepFwd f l.reverse).reverse

/-- Loop body of the `Leg` relaxation sweeps (`part_000` lines 110-118 and
125-133): move `curr` toward/away from the neighbour `nb` by half of the
correction fraction `diff = (d - segLength) / d`, with divisor guard
`Math.sqrt(dx*dx + dy*dy) || 1`. -/
def legStep (sq : ℚ → ℚ) (segLength : ℚ) (nb curr : Pt) : Pt :=
  let dx := curr.x - nb.x
  let dy := curr.y - nb.y
  let d := jsOr (sq (dx * dx + dy * dy)) 1
  let diff := (d - segLength) / d
  ⟨curr.x - dx * diff * (1 / 2), curr.y - dy * diff * (1 / 2)⟩

/-- Loop body of the first `page.tsx` variant's relaxation sweeps
(`Tentacle.update`, lines 55-73): same correction fraction and `|| 1` guard,
but the full offset `(curr - nb) * diff` is applied — no 0.5 factor. -/
def gStep (sq : ℚ → ℚ) (segLength : ℚ) (nb curr : Pt) : Pt :=
  let d := jsOr (sq ((curr.x - nb.x) * (curr.x - nb.x) +
    (curr.y - nb.y) * (curr.y - nb.y))) 1
  let diff := (d - segLength) / d
  ⟨curr.x - (curr.x - nb.x) * diff, curr.y - (curr.y - nb.y) * diff⟩

/-- Loop body of the second `page.tsx` variant's `Tentacle.update`
relaxation (lines 373-382): half correction like `legStep`, but the divisor
guard substitutes `0.01`, not `1` (`Math.sqrt(...) || 0.01`, line 378). -/
def tStep (sq : ℚ → ℚ) (segLength : ℚ) (nb curr : Pt) : Pt :=
  let cdx := curr.x - nb.x
  let cdy := curr.y - nb.y
  let cdist := jsOr (sq (cdx * cdx + cdy * cdy)) (1 / 100)
  let diff := (cdist - segLength) / cdist
  ⟨curr.x - cdx * diff * (1 / 2), curr.y - cdy * diff * (1 / 2)⟩

/-- Loop body of `Tentacle.updateReaching`'s constraint passes (second
`page.tsx` variant, lines 421-427 and 435-441): the joint is placed at
exactly `segLength` from its neighbour along the direction
`atan2(curr - nb)`; the distance `d` is computed by the source but unused. -/
def rigidStep (sq cosQ sinQ : ℚ → ℚ) (atan2Q : ℚ → ℚ → ℚ) (segLength : ℚ)
    (nb curr : Pt) : Pt :=
  let dx := curr.x - nb.x
  let dy := curr.y - nb.y
  let _d := sq (dx * dx + dy * dy)
  let ang := atan2Q dy dx
  ⟨nb.x + cosQ ang * segLength, nb.y + sinQ ang * segLength⟩

/-- State of a `Leg` (`part_000` lines 19-33), presentational fields
`color` and `index` omitted. -/
structure Leg where
  segments : List Pt
  segLength : ℚ
  tipPos : Pt
  targetTipPos : Pt
  isStepping : Bool
  stepProgress : ℚ
  homeOffset : Pt
deriving DecidableEq, Repr

/-- World home position of a leg (`part_000` lines 56-59): the home offset
rotated by the body orientation and translated to the body position. -/
def Leg.worldHome (cosQ sinQ : ℚ → ℚ) (l : Leg) (bodyX bodyY bodyAngle : ℚ) : Pt :=
  let c := cosQ bodyAngle
  let s := sinQ bodyAngle
  ⟨bodyX + (l.homeOffset.x * c - l.homeOffset.y * s),
   bodyY + (l.homeOffset.x * s + l.homeOffset.y * c)⟩

/-- Distance from the current tip to the world home (`part_000` line 62). -/
def Leg.distToHome (sq cosQ sinQ : ℚ → ℚ) (l : Leg) (bodyX bodyY bodyAngle : ℚ) : ℚ :=
  let wh := l.worldHome cosQ sinQ bodyX bodyY bodyAngle
  sq ((l.tipPos.x - wh.x) * (l.tipPos.x - wh.x) +
      (l.tipPos.y - wh.y) * (l.tipPos.y - wh.y))

/-- Step-logic half of `Leg.update` (`part_000` lines 53-94): trigger a step
when planted and further than `stepThreshold = 80` from home (landing target
`worldHome + velocity * 1.5`, progress reset to 0), then, if stepping,
advance `stepProgress` by `stepSpeed`; on reaching 1 clamp progress, snap
the tip to the landing target and return to planted, otherwise ease the tip
toward the landing target by the smoothstep of the progress. -/
def Leg.stepLogic (sq cosQ sinQ : ℚ → ℚ) (l : Leg)
    (bodyX bodyY bodyAngle : ℚ) (velocity : Pt) (stepSpeed : ℚ) : Leg :=
  let wh := l.worldHome cosQ sinQ bodyX bodyY bodyAngle
  let distToHome := l.distToHome sq cosQ sinQ bodyX bodyY bodyAngle
  let l1 :=
    if l.isStepping = false ∧ 80 < distToHome then
      { l with isStepping := true, stepProgress := 0,
               targetTipPos := ⟨wh.x + velocity.x * (3 / 2),
                                wh.y + velocity.y * (3 / 2)⟩ }
    else l
  if l1.isStepping then
    let p := l1.stepProgress + stepSpeed
    if 1 ≤ p then
      { l1 with stepProgress := 1, isStepping := false, tipPos := l1.targetTipPos }
    else
      let ease := p * p * (3 - 2 * p)
      { l1 with stepProgress := p,
                tipPos := ⟨lerp l1.tipPos.x l1.targetTipPos.x ease,
                           lerp l1.tipPos.y l1.targetTipPos.y ease⟩ }
  else l1

/-- One iteration of the `Leg` relaxation loop body (`part_000` lines
108-137): body-to-tip half-correction sweep, re-pin the root, tip-to-body
half-correction sweep (which includes joint 0), re-pin the tip.  The root is
NOT re-pinned after the tip-to-body sweep. -/
def legIkPass (sq : ℚ → ℚ) (segLength bodyX bodyY : ℚ) (tip : Pt)
    (segs : List Pt) : List Pt :=
  let a := sweepFwd (legStep sq segLength) segs
  let b := pinHead ⟨bodyX, bodyY⟩ a
  let c := sweepBwd (legStep sq segLength) b
  pinLast tip c

/-- IK half of `Leg.update` (`part_000` lines 96-138): pin the root to the
body and the tip to `tipPos`, then run the relaxation loop
`for (let r = 0; r < 3; r++)`, unrolled into its three iterations. -/
def Leg.ikRelax (sq : ℚ → ℚ) (l : Leg) (bodyX bodyY : ℚ) : Leg :=
  let s0 := pinHead ⟨bodyX, bodyY⟩ l.segments
  let s1 := pinLast l.tipPos s0
  let s2 := legIkPass sq l.segLength bodyX bodyY l.tipPos s1
  let s3 := legIkPass sq l.segLength bodyX bodyY l.tipPos s2
  let s4 := legIkPass sq l.segLength bodyX bodyY l.tipPos s3
  { l with segments := s4 }

/-- Full `Leg.update` (`part_000` lines 53-139): step logic followed by the
chain relaxation.  `stepSpeed` is `speedCfg.stepSpeed` of the selected
profile. -/
def Leg.update (sq cosQ sinQ : ℚ → ℚ) (l : Leg)
    (bodyX bodyY bodyAngle : ℚ) (velocity : Pt) (stepSpeed : ℚ) : Leg :=
  (l.stepLogic sq cosQ sinQ bodyX bodyY bodyAngle velocity stepSpeed).ikRelax
    sq bodyX bodyY

/-- The `Leg` constructor (`part_000` lines 34-51): home offset placed
radially (`(cos angle, sin angle) * dist`), all `length` segments, the tip
and the target tip seeded at `body + homeOffset`. -/
def Leg.init (cosQ sinQ : ℚ → ℚ) (x y : ℚ) (length : ℕ)
    (segLength angle distR : ℚ) : Leg :=
  let homeOffset : Pt := ⟨cosQ angle * distR, sinQ angle * distR⟩
  let p : Pt := ⟨x + homeOffset.x, y + homeOffset.y⟩
  { segments := List.replicate length p
    segLength := segLength
    tipPos := p
    targetTipPos := p
    isStepping := false
    stepProgress := 0
    homeOffset := homeOffset }

/-- The Heptapod `resize` handler's leg construction (`part_000` lines
224-239): the body is reset to the viewport centre and `LEG_COUNT = 7` legs
are created at angles `(i / 7) * π * 2`, base distance 50, with randomized
segment count `10 + floor(rand * 5)` and segment length `15 + rand * 5`.
`Math.random()` draws are supplied by the stream `rnd` (two draws per leg,
in source order). -/
def resizeLegs (cosQ sinQ : ℚ → ℚ) (piQ width height : ℚ) (rnd : ℕ → ℚ) : List Leg :=
  let cx := width / 2
  let cy := height / 2
  (List.range 7).map fun (i : ℕ) =>
    let angle := ((i : ℚ) / 7) * piQ * 2
    let segs := 10 + (⌊rnd (2 * i) * 5⌋).toNat
    let slen := 15 + rnd (2 * i + 1) * 5
    Leg.init cosQ sinQ cx cy segs slen angle 50


/-- State of a `Tentacle` of the first `page.tsx` variant (lines 19-28),
`color` omitted. -/
structure TentacleG where
  segments : List Pt
  segLength : ℚ
  angleOffset : ℚ
deriving DecidableEq, Repr

/-- `Tentacle.update` of the first `page.tsx` variant (lines 34-74): pin the
root to the body; while `movePhase < 0.5`, lerp the head (tip) by 0.1 toward
a sweep target at distance `chainLength * (0.6 + sin(movePhase·π) * 0.4)`
from the body along `angleToTarget + angleOffset * 0.5`; then a tip-to-root
full-correction sweep, re-pin the root, and a root-to-tip full-correction
sweep. -/
def TentacleG.update (sq cosQ sinQ : ℚ → ℚ) (atan2Q : ℚ → ℚ → ℚ) (piQ : ℚ)
    (t : TentacleG) (bodyX bodyY targetX targetY movePhase : ℚ) : TentacleG :=
  let s0 := pinHead ⟨bodyX, bodyY⟩ t.segments
  let dx := targetX - bodyX
  let dy := targetY - bodyY
  let angleToTarget := atan2Q dy dx
  let s1 :=
    if movePhase < 1 / 2 then
      let head := lastD s0
      let reachStrength := sinQ (movePhase * piQ)
      let sweepAngle := angleToTarget + t.angleOffset * (1 / 2)
      let reachDist := ((s0.length : ℚ) * t.segLength) *
        (6 / 10 + reachStrength * (4 / 10))
      let tx := bodyX + cosQ sweepAngle * reachDist
      let ty := bodyY + sinQ sweepAngle * reachDist
      pinLast ⟨lerp head.x tx (1 / 10), lerp head.y ty (1 / 10)⟩ s0
    else s0
  let s2 := sweepBwd (gStep sq t.segLength) s1
  let s3 := pinHead ⟨bodyX, bodyY⟩ s2
  let s4 := sweepFwd (gStep sq t.segLength) s3
  { t with segments := s4 }

/-- Gait-phase advance of the first `page.tsx` variant's render loop (lines
170-180): while the target is farther than 30 from the body and the game is
playing, the shared phase advances by the profile's `gait` rate and resets
to 0 once it strictly exceeds 1; otherwise it is lerped toward 0 by 0.1. -/
def gaitPhaseStep (sq : ℚ → ℚ) (phase bodyX bodyY targetX targetY gait : ℚ)
    (playing : Bool) : ℚ :=
  let d := sq ((targetX - bodyX) * (targetX - bodyX) +
    (targetY - bodyY) * (targetY - bodyY))
  if 30 < d ∧ playing = true then
    let p := phase + gait
    if 1 < p then 0 else p
  else lerp phase 0 (1 / 10)

/-- State of a `Tentacle` of the second `page.tsx` variant (lines 324-337),
`color` omitted; the per-appendage random wobble phase is `wobbleOffset`. -/
structure TentacleT where
  segments : List Pt
  segLength : ℚ
  wobbleOffset : ℚ
deriving DecidableEq, Repr

/-- Tip target of `Tentacle.updateReaching` (second `page.tsx` variant,
lines 408-413): at distance `min(dist(root, target), length · segLength)`
from the ROOT, along the root→target angle perturbed by the per-appendage
sinusoid `sin(time·0.03 + wobbleOffset) * 0.2` (an angular wobble). -/
def TentacleT.reachTarget (sq cosQ sinQ : ℚ → ℚ) (atan2Q : ℚ → ℚ → ℚ)
    (t : TentacleT) (rootX rootY targetX targetY time : ℚ) : Pt :=
  let angleToMouse := atan2Q (targetY - rootY) (targetX - rootX)
  let reachDist := min (distQ sq rootX rootY targetX targetY)
    ((t.segments.length : ℚ) * t.segLength)
  let a := angleToMouse + sinQ (time * (3 / 100) + t.wobbleOffset) * (2 / 10)
  ⟨rootX + cosQ a * reachDist, rootY + sinQ a * reachDist⟩

/-- Smoothed tip of `Tentacle.updateReaching` (lines 415-416): the current
tip (after the root pin) lerped by 0.1 toward `reachTarget`. -/
def TentacleT.smoothedTip (sq cosQ sinQ : ℚ → ℚ) (atan2Q : ℚ → ℚ → ℚ)
    (t : TentacleT) (rootX rootY targetX targetY time : ℚ) : Pt :=
  let tip := lastD (pinHead ⟨rootX, rootY⟩ t.segments)
  let tgt := t.reachTarget sq cosQ sinQ atan2Q rootX rootY targetX targetY time
  ⟨lerp tip.x tgt.x (1 / 10), lerp tip.y tgt.y (1 / 10)⟩

/-- `Tentacle.updateReaching` of the second `page.tsx` variant (lines
399-443): pin the root, smooth the tip toward the reach target, then a
tip-to-root rigid pass, re-pin the root, and a root-to-tip rigid pass. -/
def TentacleT.updateReaching (sq cosQ sinQ : ℚ → ℚ) (atan2Q : ℚ → ℚ → ℚ)
    (t : TentacleT) (rootX rootY targetX targetY time : ℚ) : TentacleT :=
  let s0 := pinHead ⟨rootX, rootY⟩ t.segments
  let s1 := pinLast
    (t.smoothedTip sq cosQ sinQ atan2Q rootX rootY targetX targetY time) s0
  let s2 := sweepBwd (rigidStep sq cosQ sinQ atan2Q t.segLength) s1
  let s3 := pinHead ⟨rootX, rootY⟩ s2
  let s4 := sweepFwd (rigidStep sq cosQ sinQ atan2Q t.segLength) s3
  { t with segments := s4 }

/-- Body state of the Heptapod variant (`part_000` line 212). -/
structure HBody where
  x : ℚ
  y : ℚ
  angle : ℚ
  vx : ℚ
  vy : ℚ
deriving DecidableEq, Repr

/-- Body pursuit of the Heptapod render loop (`part_000` lines 269-288):
while playing, if the target is farther than the deadzone 5, the velocity is
SET to `(target - position) * bodyMove`, the position advances by it and the
orientation is lerped by 0.05 toward `atan2(dy, dx)`; otherwise the velocity
is damped by 0.8 and the position holds. -/
def hBodyStep (sq : ℚ → ℚ) (atan2Q : ℚ → ℚ → ℚ) (b : HBody)
    (targetX targetY bodyMove : ℚ) (playing : Bool) : HBody :=
  if playing then
    let dx := targetX - b.x
    let dy := targetY - b.y
    let d := sq (dx * dx + dy * dy)
    if 5 < d then
      let vx := dx * bodyMove
      let vy := dy * bodyMove
      { x := b.x + vx, y := b.y + vy,
        angle := lerp b.angle (atan2Q dy dx) (1 / 20), vx := vx, vy := vy }
    else
      { b with vx := b.vx * (8 / 10), vy := b.vy * (8 / 10) }
  else b

/-- Body state of the second `page.tsx` variant (line 505). -/
structure TBody where
  x : ℚ
  y : ℚ
  vx : ℚ
  vy : ℚ
deriving DecidableEq, Repr

/-- Body pursuit of the second `page.tsx` variant's render loop (lines
564-574): an unconditional spring-damper — the velocity accumulates
`(target - position) * 0.05`, is damped by 0.85, and the position advances
by the damped velocity.  There is no deadzone branch. -/
def tBodyStep (b : TBody) (targetX targetY : ℚ) : TBody :=
  let vx := (b.vx + (targetX - b.x) * (1 / 20)) * (17 / 20)
  let vy := (b.vy + (targetY - b.y) * (1 / 20)) * (17 / 20)
  { x := b.x + vx, y := b.y + vy, vx := vx, vy := vy }

/-- Concrete planted leg used for evaluations: two joints on the x-axis,
rest length 10, tip pinned at (30, 0), home offset (0, 0) so its tip is 30
away from its world home (within the step threshold 80) whatever the trig
parameters return. -/
def cexLegA : Leg :=
  { segments := [⟨0, 0⟩, ⟨30, 0⟩], segLength := 10, tipPos := ⟨30, 0⟩,
    targetTipPos := ⟨30, 0⟩, isStepping := false, stepProgress := 0,
    homeOffset := ⟨0, 0⟩ }

/-- Concrete planted leg whose tip is 90 away from its world home (beyond
the step threshold 80), used to exercise the step trigger. -/
def cexLegB : Leg :=
  { segments := [⟨0, 0⟩, ⟨0, 90⟩], segLength := 10, tipPos := ⟨0, 90⟩,
    targetTipPos := ⟨0, 90⟩, isStepping := false, stepProgress := 0,
    homeOffset := ⟨0, 0⟩ }

/-- Concrete phase-gait tentacle: two joints at distance 20, rest length
10. -/
def cexTG : TentacleG :=
  { segments := [⟨0, 0⟩, ⟨20, 0⟩], segLength := 10, angleOffset := 0 }

/-- Concrete reaching tentacle: two joints, rest length 10 (total reach
2 · 10 = 20), wobble phase 0. -/
def cexTT : TentacleT :=
  { segments := [⟨0, 0⟩, ⟨5, 0⟩], segLength := 10, wobbleOffset := 0 }

/-- The rational square-root stand-in is exact on squares of nonnegative
rationals, where it agrees with the real square root. -/
theorem ratSqrt_sq (a : ℚ) (h : 0 ≤ a) : ratSqrt (a * a) = a := by
  rcases eq_or_lt_of_le h with h0 | h0
  · rw [← h0]
    norm_num [ratSqrt]
  · have hne : ¬ (a * a ≤ 0) := not_le.2 (mul_pos h0 h0)
    have hnn : 0 ≤ a.num := Rat.num_nonneg.mpr h
    rw [ratSqrt, if_neg hne, Rat.mul_self_num, Rat.mul_self_den,
        show a.num = (a.num.toNat : ℤ) from (Int.toNat_of_nonneg hnn).symm,
        ← Nat.cast_mul, Int.toNat_natCast, Nat.sqrt_eq, Nat.sqrt_eq]
    have hc : ((a.num.toNat : ℕ) : ℚ) = (a.num : ℚ) := by
      exact_mod_cast congrArg (fun z : ℤ => (z : ℚ)) (Int.toNat_of_nonneg hnn)
    rw [hc]
    exact Rat.num_div_den a

/-- The rational square-root stand-in is nonnegative everywhere. -/
theorem ratSqrt_nonneg (q : ℚ) : 0 ≤ ratSqrt q := by
  unfold ratSqrt
  split_ifs with h
  · exact le_refl 0
  · positivity

theorem rs0 : ratSqrt 0 = 0 := by
  norm_num [ratSqrt]

theorem rs25 : ratSqrt 25 = 5 := by
  rw [show (25 : ℚ) = 5 * 5 by norm_num, ratSqrt_sq]
  norm_num

theorem rs100 : ratSqrt 100 = 10 := by
  rw [show (100 : ℚ) = 10 * 10 by norm_num, ratSqrt_sq]
  norm_num

theorem rs400 : ratSqrt 400 = 20 := by
  rw [show (400 : ℚ) = 20 * 20 by norm_num, ratSqrt_sq]
  norm_num

theorem rs625 : ratSqrt 625 = 25 := by
  rw [show (625 : ℚ) = 25 * 25 by norm_num, ratSqrt_sq]
  norm_num

theorem rs900 : ratSqrt 900 = 30 := by
  rw [show (900 : ℚ) = 30 * 30 by norm_num, ratSqrt_sq]
  norm_num

theorem rs8100 : ratSqrt 8100 = 90 := by
  rw [show (8100 : ℚ) = 90 * 90 by norm_num, ratSqrt_sq]
  norm_num

theorem rs10000 : ratSqrt 10000 = 100 := by
  rw [show (10000 : ℚ) = 100 * 100 by norm_num, ratSqrt_sq]
  norm_num

theorem rs2025d4 : ratSqrt (2025 / 4) = 45 / 2 := by
  rw [show (2025 / 4 : ℚ) = (45 / 2) * (45 / 2) by norm_num, ratSqrt_sq]
  norm_num

theorem rs9025d16 : ratSqrt (9025 / 16) = 95 / 4 := by
  rw [show (9025 / 16 : ℚ) = (95 / 4) * (95 / 4) by norm_num, ratSqrt_sq]
  norm_num

theorem rs34225d64 : ratSqrt (34225 / 64) = 185 / 8 := by
  rw [show (34225 / 64 : ℚ) = (185 / 8) * (185 / 8) by norm_num, ratSqrt_sq]
  norm_num

/-- The scalar IK-state fields of a leg are untouched by the chain
relaxation: `Leg.ikRelax` only rewrites `segments`. -/
theorem Leg.ikRelax_scalar (sq : ℚ → ℚ) (l : Leg) (bx cy : ℚ) :
    (l.ikRelax sq bx cy).tipPos = l.tipPos ∧
    (l.ikRelax sq bx cy).targetTipPos = l.targetTipPos ∧
    (l.ikRelax sq bx cy).isStepping = l.isStepping ∧
    (l.ikRelax sq bx cy).stepProgress = l.stepProgress := by
  refine ⟨?_, ?_, ?_, ?_⟩ <;> rfl

/-- The scalar IK-state fields of `Leg.update` agree with those of its
step-logic half. -/
theorem Leg.update_scalar (sq cosQ sinQ : ℚ → ℚ) (l : Leg)
    (bx cy ang : ℚ) (v : Pt) (s : ℚ) :
    (l.update sq cosQ sinQ bx cy ang v s).tipPos =
      (l.stepLogic sq cosQ sinQ bx cy ang v s).tipPos ∧
    (l.update sq cosQ sinQ bx cy ang v s).targetTipPos =
      (l.stepLogic sq cosQ sinQ bx cy ang v s).targetTipPos ∧
    (l.update sq cosQ sinQ bx cy ang v s).isStepping =
      (l.stepLogic sq cosQ sinQ bx cy ang v s).isStepping ∧
    (l.update sq cosQ sinQ bx cy ang v s).stepProgress =
      (l.stepLogic sq cosQ sinQ bx cy ang v s).stepProgress := by
  unfold Leg.update
  exact Leg.ikRelax_scalar sq (l.stepLogic sq cosQ sinQ bx cy ang v s) bx cy

/-- C1: refuted on the Heptapod variant, and the spec/claim is the evident
intent of the code (`part_000` lines 99-101 "Anchor root to body" and 109
"(Root is fixed)"), so this is a code bug.  After a full `Leg.update` call
with anchor (0, 0) on a two-joint chain with tip (30, 0), joint 0 ends at
(105/16, 0) = (6.5625, 0), not at the anchor: the tip-to-body sweep (lines
125-134) runs down to index 0 and the root is never re-pinned after the
final sweep.  Every `Math.sqrt` call on this trace hits a perfect rational
square, where `ratSqrt` is exact; the trig stand-ins are exact at the only
argument used (body angle 0, where cos = 1 and sin = 0), and the home
offset is (0, 0) so their values cannot influence the trace anyway. -/
theorem c1_anchor_joint_left_mutated :
    (cexLegA.update ratSqrt (fun _ => 1) (fun _ => 0) 0 0 0 ⟨0, 0⟩ (3 / 50)).segments
      = [⟨105 / 16, 0⟩, ⟨30, 0⟩] ∧ (Pt.mk (105 / 16) 0) ≠ ⟨0, 0⟩ := by
  constructor
  · norm_num [cexLegA, Leg.update, Leg.stepLogic, Leg.worldHome, Leg.distToHome,
      Leg.ikRelax, legIkPass, sweepFwd, sweepBwd, chainScan, pinHead, pinLast,
      legStep, jsOr, lerp, List.reverse_cons, List.reverse_nil,
      rs900, rs400, rs625, rs2025d4, rs9025d16, rs34225d64]
  · intro h
    rw [Pt.mk.injEq] at h
    norm_num at h

/-- C10: a planted leg whose tip is within the step threshold of its world
home keeps its entire tip state unchanged across `Leg.update`: the step
trigger cannot fire, the stepping branch is skipped, and the chain
relaxation touches only `segments`. -/
theorem c10_planted_tip_unchanged (sq cosQ sinQ : ℚ → ℚ) (l : Leg)
    (bx cy ang : ℚ) (v : Pt) (s : ℚ)
    (h1 : l.isStepping = false)
    (h2 : l.distToHome sq cosQ sinQ bx cy ang ≤ 80) :
    (l.update sq cosQ sinQ bx cy ang v s).tipPos = l.tipPos ∧
    (l.update sq cosQ sinQ bx cy ang v s).targetTipPos = l.targetTipPos ∧
    (l.update sq cosQ sinQ bx cy ang v s).isStepping = false ∧
    (l.update sq cosQ sinQ bx cy ang v s).stepProgress = l.stepProgress := by
  obtain ⟨e1, e2, e3, e4⟩ := Leg.update_scalar sq cosQ sinQ l bx cy ang v s
  rw [e1, e2, e3, e4]
  have hls : l.stepLogic sq cosQ sinQ bx cy ang v s = l := by
    simp [Leg.stepLogic, h1, not_lt.2 h2]
  rw [hls]
  exact ⟨rfl, rfl, h1, rfl⟩

/-- Witness for C10 at a concrete planted leg with tip 30 away from home
(threshold 80): `tipPos` stays (30, 0) after an update. -/
theorem c10_witness :
    (cexLegA.update ratSqrt (fun _ => 1) (fun _ => 0) 0 0 0 ⟨0, 0⟩ (3 / 50)).tipPos
      = ⟨30, 0⟩ :=
  (c10_planted_tip_unchanged ratSqrt (fun _ => 1) (fun _ => 0) cexLegA 0 0 0 ⟨0, 0⟩
    (3 / 50) rfl (by norm_num [cexLegA, Leg.distToHome, Leg.worldHome, rs900])).1

/-- C3: the threshold-stepping state machine of `Leg.update`.  (i) A planted
leg farther than the threshold 80 from its world home triggers a step: the
landing target becomes `worldHome + velocity * 1.5` and the progress is
reset to 0 before advancing, so after the same call the progress equals
`stepSpeed` (still stepping) — or, if `stepSpeed ≥ 1`, the step completes
within the frame with the tip snapped to the landing target.  (ii) While
stepping, no re-trigger occurs (the landing target is frozen) and
`stepProgress` is non-decreasing.  (iii) Once the advanced progress reaches
1 the progress clamps to 1, the tip snaps exactly to the (unchanged) landing
target and the state returns to planted. -/
theorem c3_stepping_state_machine (sq cosQ sinQ : ℚ → ℚ) (l : Leg)
    (bx cy ang : ℚ) (v : Pt) (stepSpeed : ℚ)
    (hsp : 0 ≤ stepSpeed) (hpr : l.stepProgress ≤ 1) :
    (l.isStepping = false → 80 < l.distToHome sq cosQ sinQ bx cy ang →
      (l.update sq cosQ sinQ bx cy ang v stepSpeed).targetTipPos =
        ⟨(l.worldHome cosQ sinQ bx cy ang).x + v.x * (3 / 2),
         (l.worldHome cosQ sinQ bx cy ang).y + v.y * (3 / 2)⟩ ∧
      (stepSpeed < 1 →
        (l.update sq cosQ sinQ bx cy ang v stepSpeed).isStepping = true ∧
        (l.update sq cosQ sinQ bx cy ang v stepSpeed).stepProgress = stepSpeed) ∧
      (1 ≤ stepSpeed →
        (l.update sq cosQ sinQ bx cy ang v stepSpeed).isStepping = false ∧
        (l.update sq cosQ sinQ bx cy ang v stepSpeed).stepProgress = 1 ∧
        (l.update sq cosQ sinQ bx cy ang v stepSpeed).tipPos =
          (l.update sq cosQ sinQ bx cy ang v stepSpeed).targetTipPos)) ∧
    (l.isStepping = true →
      (l.update sq cosQ sinQ bx cy ang v stepSpeed).targetTipPos = l.targetTipPos ∧
      l.stepProgress ≤ (l.update sq cosQ sinQ bx cy ang v stepSpeed).stepProgress) ∧
    (l.isStepping = true → 1 ≤ l.stepProgress + stepSpeed →
      (l.update sq cosQ sinQ bx cy ang v stepSpeed).isStepping = false ∧
      (l.update sq cosQ sinQ bx cy ang v stepSpeed).stepProgress = 1 ∧
      (l.update sq cosQ sinQ bx cy ang v stepSpeed).tipPos = l.targetTipPos) := by
  obtain ⟨e1, e2, e3, e4⟩ := Leg.update_scalar sq cosQ sinQ l bx cy ang v stepSpeed
  rw [e1, e2, e3, e4]
  refine ⟨?_, ?_, ?_⟩
  · intro hpl hdist
    unfold Leg.stepLogic
    simp only [hpl, true_and, hdist, if_true, if_pos]
    constructor
    · split_ifs <;> rfl
    constructor
    · intro hlt
      rw [if_neg (by simpa using not_le.2 (by linarith : (0 : ℚ) + stepSpeed < 1))]
      exact ⟨rfl, zero_add stepSpeed⟩
    · intro hge
      rw [if_pos (by simpa using (by linarith : (1 : ℚ) ≤ 0 + stepSpeed))]
      exact ⟨rfl, rfl, rfl⟩
  · intro hst
    unfold Leg.stepLogic
    simp only [hst, Bool.true_eq_false, false_and, if_false, if_pos]
    split_ifs with hge
    · exact ⟨rfl, hpr⟩
    · exact ⟨rfl, le_add_of_nonneg_right hsp⟩
  · intro hst hge
    unfold Leg.stepLogic
    simp only [hst, Bool.true_eq_false, false_and, if_false]
    rw [if_pos (by simp [hst]), if_pos (by simpa using hge)]
    exact ⟨rfl, rfl, rfl⟩

/-- Witness for C3: a planted leg 90 away from its world home under body
velocity (4, 0) and `stepSpeed = 0.1` triggers a step with landing target
`worldHome + velocity * 1.5 = (6, 0)` and progress 0.1 after the call. -/
theorem c3_witness :
    (cexLegB.update ratSqrt (fun _ => 1) (fun _ => 0) 0 0 0 ⟨4, 0⟩ (1 / 10)).targetTipPos
        = ⟨6, 0⟩ ∧
    (cexLegB.update ratSqrt (fun _ => 1) (fun _ => 0) 0 0 0 ⟨4, 0⟩ (1 / 10)).stepProgress
        = 1 / 10 := by
  have h := (c3_stepping_state_machine ratSqrt (fun _ => 1) (fun _ => 0) cexLegB 0 0 0
      ⟨4, 0⟩ (1 / 10) (by norm_num) (by norm_num [cexLegB])).1 rfl
      (by norm_num [cexLegB, Leg.distToHome, Leg.worldHome, rs8100])
  refine ⟨?_, (h.2.1 (by norm_num)).2⟩
  rw [h.1]
  norm_num [cexLegB, Leg.worldHome]

/-- C2 (amended): extensional characterization of the per-joint corrections.
For a joint pair whose true distance is `d > 0` (stated via satisfiable
hypotheses pinning the square root of the squared offset to `d`), the `Leg`
solver's step and the reach variant's `update` step close exactly HALF the
gap: the moved joint ends at squared distance `((d + L) / 2)²` from its
neighbour.  The phase-gait variant's step (`page.tsx` lines 55-73) instead
closes the WHOLE gap: squared distance exactly `L²` — a full correction,
not the claimed `f * 0.5`. -/
theorem c2_half_vs_full_correction (sq : ℚ → ℚ) (L d : ℚ) (nb c : Pt)
    (hd : sq ((c.x - nb.x) * (c.x - nb.x) + (c.y - nb.y) * (c.y - nb.y)) = d)
    (hsq : d * d = (c.x - nb.x) * (c.x - nb.x) + (c.y - nb.y) * (c.y - nb.y))
    (hpos : 0 < d) :
    ((legStep sq L nb c).x - nb.x) * ((legStep sq L nb c).x - nb.x) +
      ((legStep sq L nb c).y - nb.y) * ((legStep sq L nb c).y - nb.y) =
      ((d + L) / 2) * ((d + L) / 2) ∧
    ((tStep sq L nb c).x - nb.x) * ((tStep sq L nb c).x - nb.x) +
      ((tStep sq L nb c).y - nb.y) * ((tStep sq L nb c).y - nb.y) =
      ((d + L) / 2) * ((d + L) / 2) ∧
    ((gStep sq L nb c).x - nb.x) * ((gStep sq L nb c).x - nb.x) +
      ((gStep sq L nb c).y - nb.y) * ((gStep sq L nb c).y - nb.y) = L * L := by
  have hne : d ≠ 0 := ne_of_gt hpos
  refine ⟨?_, ?_, ?_⟩
  · simp only [legStep, jsOr, hd, if_neg hne]
    field_simp
    linear_combination (-4 * (d + L) ^ 2) * hsq
  · simp only [tStep, jsOr, hd, if_neg hne]
    field_simp
    linear_combination (-4 * (d + L) ^ 2) * hsq
  · simp only [gStep, jsOr, hd, if_neg hne]
    field_simp
    linear_combination (-(L * L)) * hsq

/-- Witness for C2 at the pair (0,0)–(3,4) (true distance 5, rest length 7):
the Leg step lands at squared distance ((5+7)/2)² = 36 from the neighbour
(half the gap closed), the phase-gait step at exactly 7² = 49 (whole gap
closed). -/
theorem c2_witness :
    ((legStep ratSqrt 7 ⟨0, 0⟩ ⟨3, 4⟩).x - 0) * ((legStep ratSqrt 7 ⟨0, 0⟩ ⟨3, 4⟩).x - 0) +
      ((legStep ratSqrt 7 ⟨0, 0⟩ ⟨3, 4⟩).y - 0) * ((legStep ratSqrt 7 ⟨0, 0⟩ ⟨3, 4⟩).y - 0) =
      ((5 + 7) / 2) * ((5 + 7) / 2) ∧
    ((gStep ratSqrt 7 ⟨0, 0⟩ ⟨3, 4⟩).x - 0) * ((gStep ratSqrt 7 ⟨0, 0⟩ ⟨3, 4⟩).x - 0) +
      ((gStep ratSqrt 7 ⟨0, 0⟩ ⟨3, 4⟩).y - 0) * ((gStep ratSqrt 7 ⟨0, 0⟩ ⟨3, 4⟩).y - 0) =
      7 * 7 := by
  have h := c2_half_vs_full_correction ratSqrt 7 5 ⟨0, 0⟩ ⟨3, 4⟩
    (by norm_num [rs25]) (by norm_num) (by norm_num)
  exact ⟨by simpa using h.1, by simpa using h.2.2⟩

/-- C2: refuted as universally stated.  A full `Tentacle.update` of the
phase-gait variant on a two-joint chain [(0,0),(20,0)] with rest length 10
and `movePhase = 0.6` (so the reach branch is skipped and only the sweeps
run) moves joint 1 to (10, 0): the FULL correction.  The claimed
`f * 0.5` law would have left it at `20 - 20 * ((20 - 10) / 20) * 0.5 = 15`.
The sweeps' square roots hit 400 (exact for `ratSqrt`); the trig parameters
are dead in this branch. -/
theorem c2_full_correction_cex :
    (cexTG.update ratSqrt (fun _ => 1) (fun _ => 0) (fun _ _ => 0) 3 0 0 100 0 (3 / 5)).segments
      = [⟨0, 0⟩, ⟨10, 0⟩] ∧
    (Pt.mk 10 0) ≠ ⟨20 - (20 - 0) * ((20 - 10) / 20) * (1 / 2), 0⟩ := by
  constructor
  · norm_num [cexTG, TentacleG.update, sweepFwd, sweepBwd, chainScan, pinHead, pinLast,
      gStep, jsOr, lerp, lastD, List.reverse_cons, List.reverse_nil, rs400]
  · intro h
    rw [Pt.mk.injEq] at h
    norm_num at h

/-- C7 (amended): every relaxation sweep's divisor is guarded to a strictly
positive value — 1 in the Leg and phase-gait solvers, 0.01 in the reach
variant's `update` solver — provided the square-root parameter is
nonnegative on nonnegative inputs (true of the real `Math.sqrt`); and a
joint coincident with its neighbour is left exactly in place by all three
steps (the correction is 0 · diff), so the guarded correction is always
well-defined and finite. -/
theorem c7_divisor_guard (sq : ℚ → ℚ) (hs : ∀ q, 0 ≤ q → 0 ≤ sq q)
    (L : ℚ) (nb c : Pt) :
    0 < jsOr (sq ((c.x - nb.x) * (c.x - nb.x) + (c.y - nb.y) * (c.y - nb.y))) 1 ∧
    0 < jsOr (sq ((c.x - nb.x) * (c.x - nb.x) + (c.y - nb.y) * (c.y - nb.y))) (1 / 100) ∧
    legStep sq L nb nb = nb ∧ gStep sq L nb nb = nb ∧ tStep sq L nb nb = nb := by
  obtain ⟨nx, ny⟩ := nb
  have hq : 0 ≤ (c.x - nx) * (c.x - nx) + (c.y - ny) * (c.y - ny) :=
    add_nonneg (mul_self_nonneg _) (mul_self_nonneg _)
  have hv := hs _ hq
  refine ⟨?_, ?_, ?_, ?_, ?_⟩
  · unfold jsOr
    split_ifs with h0
    · norm_num
    · exact lt_of_le_of_ne hv (Ne.symm h0)
  · unfold jsOr
    split_ifs with h0
    · norm_num
    · exact lt_of_le_of_ne hv (Ne.symm h0)
  · simp [legStep]
  · simp [gStep]
  · simp [tStep]

/-- Witness for C7: at the coincident pair (2,3)–(2,3) the Leg divisor is
the substituted 1 (positive) and the Leg step leaves the joint in place. -/
theorem c7_witness :
    0 < jsOr (ratSqrt (((2 : ℚ) - 2) * ((2 : ℚ) - 2) + ((3 : ℚ) - 3) * ((3 : ℚ) - 3))) 1 ∧
    legStep ratSqrt 10 ⟨2, 3⟩ ⟨2, 3⟩ = ⟨2, 3⟩ := by
  have h := c7_divisor_guard ratSqrt (fun q _ => ratSqrt_nonneg q) 10 ⟨2, 3⟩ ⟨2, 3⟩
  exact ⟨by simpa using h.1, h.2.2.1⟩

/-- C7: refuted as stated ("a minimum of 1 unit" in every sweep).  At a
zero inter-joint distance the reach variant's `update` sweep substitutes
the divisor 0.01 (`Math.sqrt(...) || 0.01`, `page.tsx` line 378), not 1 —
these expressions are exactly the guarded divisors of `tStep` and `legStep`
on a coincident pair, where `ratSqrt` returns the exact value 0. -/
theorem c7_guard_not_one_cex :
    jsOr (ratSqrt (((3 : ℚ) - 3) * ((3 : ℚ) - 3) + ((4 : ℚ) - 4) * ((4 : ℚ) - 4))) (1 / 100)
      = 1 / 100 ∧
    jsOr (ratSqrt (((3 : ℚ) - 3) * ((3 : ℚ) - 3) + ((4 : ℚ) - 4) * ((4 : ℚ) - 4))) 1 = 1 ∧
    (1 / 100 : ℚ) ≠ 1 := by
  norm_num [jsOr, rs0]

/-- C8 (amended): the two body-pursuit laws as implemented.  The Heptapod
body (while playing) follows the claimed law — beyond the deadzone 5 the
velocity is SET to `(target − position) * bodyMove` and the position
advances by it; within the deadzone the velocity is damped by 0.8 and the
position holds.  The Tentacle-System body instead integrates an
unconditional spring-damper every frame — `v += (target − pos) * 0.05`,
`v *= 0.85`, `pos += v` — with no deadzone branch at all. -/
theorem c8_body_pursuit_laws (sq : ℚ → ℚ) (atan2Q : ℚ → ℚ → ℚ)
    (b : HBody) (tb : TBody) (tx ty ux uy g : ℚ) :
    (5 < sq ((tx - b.x) * (tx - b.x) + (ty - b.y) * (ty - b.y)) →
      (hBodyStep sq atan2Q b tx ty g true).vx = (tx - b.x) * g ∧
      (hBodyStep sq atan2Q b tx ty g true).vy = (ty - b.y) * g ∧
      (hBodyStep sq atan2Q b tx ty g true).x = b.x + (tx - b.x) * g ∧
      (hBodyStep sq atan2Q b tx ty g true).y = b.y + (ty - b.y) * g) ∧
    (¬ 5 < sq ((tx - b.x) * (tx - b.x) + (ty - b.y) * (ty - b.y)) →
      (hBodyStep sq atan2Q b tx ty g true).vx = b.vx * (8 / 10) ∧
      (hBodyStep sq atan2Q b tx ty g true).vy = b.vy * (8 / 10) ∧
      (hBodyStep sq atan2Q b tx ty g true).x = b.x ∧
      (hBodyStep sq atan2Q b tx ty g true).y = b.y) ∧
    ((tBodyStep tb ux uy).vx = (tb.vx + (ux - tb.x) * (1 / 20)) * (17 / 20) ∧
     (tBodyStep tb ux uy).vy = (tb.vy + (uy - tb.y) * (1 / 20)) * (17 / 20) ∧
     (tBodyStep tb ux uy).x = tb.x + (tBodyStep tb ux uy).vx ∧
     (tBodyStep tb ux uy).y = tb.y + (tBodyStep tb ux uy).vy) := by
  refine ⟨?_, ?_, ?_⟩
  · intro hd
    simp [hBodyStep, hd]
  · intro hd
    simp [hBodyStep, hd]
  · exact ⟨rfl, rfl, rfl, rfl⟩

/-- Witness for C8 at concrete states: Heptapod body at the origin chasing
(6, 8) (distance 10 > 5) with gain 0.03, and Tentacle-System body at the
origin with velocity (100, 0) and the target on the body. -/
theorem c8_witness :
    (hBodyStep ratSqrt (fun _ _ => 0) ⟨0, 0, 0, 0, 0⟩ 6 8 (3 / 100) true).vx
      = (6 - 0) * (3 / 100) ∧
    (tBodyStep ⟨0, 0, 100, 0⟩ 0 0).x = 0 + (tBodyStep ⟨0, 0, 100, 0⟩ 0 0).vx := by
  have h := c8_body_pursuit_laws ratSqrt (fun _ _ => 0) ⟨0, 0, 0, 0, 0⟩ ⟨0, 0, 100, 0⟩
    6 8 0 0 (3 / 100)
  refine ⟨?_, ?_⟩
  · exact (h.1 (by norm_num [rs100])).1
  · exact h.2.2.2.2.1

/-- C8: refuted as universally stated.  In the Tentacle-System variant the
target sits exactly on the body (distance 0 ≤ deadzone 5), yet one frame of
its body pursuit moves the body from x = 0 to x = 85 (the accumulated
velocity 100 is merely damped to 85 and still applied); the claim says the
position must hold inside the deadzone. -/
theorem c8_no_deadzone_cex :
    distQ ratSqrt 0 0 0 0 = 0 ∧
    (tBodyStep ⟨0, 0, 100, 0⟩ 0 0).x = 85 ∧ (85 : ℚ) ≠ 0 := by
  refine ⟨?_, ?_, by norm_num⟩
  · norm_num [distQ, rs0]
  · norm_num [tBodyStep]

/-- A sequential sweep whose step always establishes the pair relation `P`
between the neighbour and the placed joint yields a chain in which every
adjacent pair satisfies `P`. -/
theorem chainScan_chain' (f : Pt → Pt → Pt) (P : Pt → Pt → Prop)
    (hf : ∀ p c, P p (f p c)) :
    ∀ (prev : Pt) (l : List Pt), List.Chain' P (prev :: chainScan f prev l) := by
  intro prev l
  induction l generalizing prev with
  | nil => simp [chainScan]
  | cons c rest ih =>
    rw [chainScan]
    exact List.Chain'.cons (hf prev c) (ih (f prev c))

/-- The root-to-tip pass of `updateReaching` always produces adjacent pairs
satisfying `P` when the placing step guarantees it. -/
theorem sweepFwd_chain' (f : Pt → Pt → Pt) (P : Pt → Pt → Prop)
    (hf : ∀ p c, P p (f p c)) (l : List Pt) :
    List.Chain' P (sweepFwd f l) := by
  cases l with
  | nil => simp [sweepFwd]
  | cons h t => exact chainScan_chain' f P hf h t

/-- C9: after `Tentacle.updateReaching`, every pair of consecutive joints is
at squared distance exactly `segLength²` (so, in real terms, at distance
exactly `segLength`): the final root-to-tip pass places each joint rigidly
at `segLength` along the unit direction `(cos θ, sin θ)` from its
(already-final) neighbour, for any angle function — only the Pythagorean
identity for the cos/sin parameters is needed.  In particular the tip's
final position is whatever the last root-to-tip placement yields, not the
smoothed tip target computed earlier in the call. -/
theorem c9_rigid_segment_lengths (sq cosQ sinQ : ℚ → ℚ) (atan2Q : ℚ → ℚ → ℚ)
    (t : TentacleT) (rootX rootY targetX targetY time : ℚ)
    (hpy : ∀ θ, cosQ θ * cosQ θ + sinQ θ * sinQ θ = 1) :
    List.Chain'
      (fun a b : Pt => (b.x - a.x) * (b.x - a.x) + (b.y - a.y) * (b.y - a.y) =
        t.segLength * t.segLength)
      ((t.updateReaching sq cosQ sinQ atan2Q rootX rootY targetX targetY time).segments) := by
  have hstep : ∀ p c : Pt,
      ((rigidStep sq cosQ sinQ atan2Q t.segLength p c).x - p.x) *
        ((rigidStep sq cosQ sinQ atan2Q t.segLength p c).x - p.x) +
      ((rigidStep sq cosQ sinQ atan2Q t.segLength p c).y - p.y) *
        ((rigidStep sq cosQ sinQ atan2Q t.segLength p c).y - p.y) =
        t.segLength * t.segLength := by
    intro p c
    simp only [rigidStep]
    set th := atan2Q (c.y - p.y) (c.x - p.x) with hth
    linear_combination (t.segLength * t.segLength) * hpy th
  have : (t.updateReaching sq cosQ sinQ atan2Q rootX rootY targetX targetY time).segments
      = sweepFwd (rigidStep sq cosQ sinQ atan2Q t.segLength)
        (pinHead ⟨rootX, rootY⟩
          (sweepBwd (rigidStep sq cosQ sinQ atan2Q t.segLength)
            (pinLast (t.smoothedTip sq cosQ sinQ atan2Q rootX rootY targetX targetY time)
              (pinHead ⟨rootX, rootY⟩ t.segments)))) := rfl
  rw [this]
  exact sweepFwd_chain' _ _ hstep _

/-- Witness for C9 at a concrete reaching tentacle (joints (0,0) and (5,0),
rest length 10), with trig stand-ins `cos = 1`, `sin = 0` satisfying the
Pythagorean identity everywhere. -/
theorem c9_witness :
    List.Chain'
      (fun a b : Pt => (b.x - a.x) * (b.x - a.x) + (b.y - a.y) * (b.y - a.y) =
        cexTT.segLength * cexTT.segLength)
      ((cexTT.updateReaching ratSqrt (fun _ => 1) (fun _ => 0) (fun _ _ => 0)
        0 0 100 0 0).segments) :=
  c9_rigid_segment_lengths ratSqrt (fun _ => 1) (fun _ => 0) (fun _ _ => 0)
    cexTT 0 0 100 0 0 (by intro θ; norm_num)

/-- C4 (amended): the reaching variant's per-frame tip target lies at
distance `min(dist(root, externalTarget), segmentCount · segLength)` from
the ROOT (stated via its square), along the root→target direction perturbed
in ANGLE by the per-appendage sinusoid — it is not the external target
point plus a wobble.  The tip is smoothed toward that target by exactly the
fixed interpolation factor 0.1 (second and third conjuncts). -/
theorem c4_reach_target_geometry (sq cosQ sinQ : ℚ → ℚ) (atan2Q : ℚ → ℚ → ℚ)
    (t : TentacleT) (rootX rootY targetX targetY time : ℚ)
    (hpy : ∀ θ, cosQ θ * cosQ θ + sinQ θ * sinQ θ = 1) :
    ((t.reachTarget sq cosQ sinQ atan2Q rootX rootY targetX targetY time).x - rootX) *
      ((t.reachTarget sq cosQ sinQ atan2Q rootX rootY targetX targetY time).x - rootX) +
    ((t.reachTarget sq cosQ sinQ atan2Q rootX rootY targetX targetY time).y - rootY) *
      ((t.reachTarget sq cosQ sinQ atan2Q rootX rootY targetX targetY time).y - rootY) =
      min (distQ sq rootX rootY targetX targetY) ((t.segments.length : ℚ) * t.segLength) *
      min (distQ sq rootX rootY targetX targetY) ((t.segments.length : ℚ) * t.segLength) ∧
    (t.smoothedTip sq cosQ sinQ atan2Q rootX rootY targetX targetY time).x -
        (lastD (pinHead ⟨rootX, rootY⟩ t.segments)).x =
      ((t.reachTarget sq cosQ sinQ atan2Q rootX rootY targetX targetY time).x -
        (lastD (pinHead ⟨rootX, rootY⟩ t.segments)).x) * (1 / 10) ∧
    (t.smoothedTip sq cosQ sinQ atan2Q rootX rootY targetX targetY time).y -
        (lastD (pinHead ⟨rootX, rootY⟩ t.segments)).y =
      ((t.reachTarget sq cosQ sinQ atan2Q rootX rootY targetX targetY time).y -
        (lastD (pinHead ⟨rootX, rootY⟩ t.segments)).y) * (1 / 10) := by
  refine ⟨?_, ?_, ?_⟩
  · simp only [TentacleT.reachTarget]
    set th := atan2Q (targetY - rootY) (targetX - rootX) +
      sinQ (time * (3 / 100) + t.wobbleOffset) * (2 / 10) with hth
    set r := min (distQ sq rootX rootY targetX targetY)
      ((t.segments.length : ℚ) * t.segLength) with hr
    linear_combination (r * r) * hpy th
  · simp only [TentacleT.smoothedTip, lerp]
    ring
  · simp only [TentacleT.smoothedTip, lerp]
    ring

/-- Witness for C4: the concrete reaching tentacle (2 joints, rest length
10) rooted at the origin with the external target at (100, 0): the tip
target sits at squared distance 400 from the root — `min(100, 20)² = 20²`,
clamped by the chain's maximum extension, far from the external target. -/
theorem c4_witness :
    ((cexTT.reachTarget ratSqrt (fun _ => 1) (fun _ => 0) (fun _ _ => 0) 0 0 100 0 0).x - 0) *
      ((cexTT.reachTarget ratSqrt (fun _ => 1) (fun _ => 0) (fun _ _ => 0) 0 0 100 0 0).x - 0) +
    ((cexTT.reachTarget ratSqrt (fun _ => 1) (fun _ => 0) (fun _ _ => 0) 0 0 100 0 0).y - 0) *
      ((cexTT.reachTarget ratSqrt (fun _ => 1) (fun _ => 0) (fun _ _ => 0) 0 0 100 0 0).y - 0)
      = 400 := by
  have h := (c4_reach_target_geometry ratSqrt (fun _ => 1) (fun _ => 0) (fun _ _ => 0)
    cexTT 0 0 100 0 0 (by intro θ; norm_num)).1
  norm_num [distQ, rs10000, cexTT, min_def] at h
  simpa using h

/-- C4: refuted as stated.  With zero wobble (time 0, per-appendage offset
0, where any sinusoidal perturbation vanishes since sin 0 = 0) the claimed
law gives tip target = externalTarget = (100, 0); the code instead clamps
the reach to the chain's maximum extension 2 · 10 = 20 from the ROOT and
yields (20, 0).  The rational trig stand-ins used agree with the true
functions at every argument of this trace (all angles are 0: atan2(0, 100)
= 0, cos 0 = 1, sin 0 = 0). -/
theorem c4_target_not_external_cex :
    cexTT.reachTarget ratSqrt (fun _ => 1) (fun _ => 0) (fun _ _ => 0) 0 0 100 0 0
      = ⟨20, 0⟩ ∧ (Pt.mk 20 0) ≠ ⟨100, 0⟩ := by
  constructor
  · norm_num [cexTT, TentacleT.reachTarget, distQ, rs10000, min_def]
  · intro h
    rw [Pt.mk.injEq] at h
    norm_num at h

/-- C5 (amended): a viewport reset discards and rebuilds the legs — always
exactly `LEG_COUNT = 7` of them — and seeds every joint of leg `i` at the
leg's HOME position, `bodyCentre + homeOffset(i)` (a radial offset of
length 50), not at the body position itself.  Two resets with the same
dimensions agree on the count, on each leg's home offset and on every
seeded joint position, even with different random draws (the randomness
only affects segment counts and rest lengths). -/
theorem c5_reseed_placement (cosQ sinQ : ℚ → ℚ) (piQ w ht : ℚ) (rnd rnd' : ℕ → ℚ) :
    (resizeLegs cosQ sinQ piQ w ht rnd).length = 7 ∧
    (resizeLegs cosQ sinQ piQ w ht rnd').length = 7 ∧
    (∀ i : ℕ, ∀ l1 ∈ (resizeLegs cosQ sinQ piQ w ht rnd).get? i,
      ∀ l2 ∈ (resizeLegs cosQ sinQ piQ w ht rnd').get? i,
        l1.homeOffset = l2.homeOffset ∧
        (∀ p ∈ l1.segments, p = ⟨w / 2 + l1.homeOffset.x, ht / 2 + l1.homeOffset.y⟩) ∧
        (∀ p ∈ l2.segments, p = ⟨w / 2 + l1.homeOffset.x, ht / 2 + l1.homeOffset.y⟩)) := by
  refine ⟨by simp [resizeLegs], by simp [resizeLegs], ?_⟩
  intro i l1 h1 l2 h2
  simp only [resizeLegs, List.get?_map, Option.mem_def, Option.map_eq_some'] at h1 h2
  obtain ⟨a, ha, hl1⟩ := h1
  obtain ⟨b, hb, hl2⟩ := h2
  have hlt : i < 7 := by
    have := (List.get?_eq_some.mp ha).1
    simpa using this
  rw [List.get?_range hlt] at ha hb
  have hai : i = a := Option.some_inj.mp ha
  have hbi : i = b := Option.some_inj.mp hb
  subst hai
  subst hbi
  subst hl1
  subst hl2
  refine ⟨by simp [Leg.init], ?_, ?_⟩
  · intro p hp
    simp only [Leg.init] at hp ⊢
    exact List.eq_of_mem_replicate hp
  · intro p hp
    simp only [Leg.init] at hp ⊢
    exact List.eq_of_mem_replicate hp

/-- Witness for C5: with viewport 200 × 100 (body centre (100, 50)), trivial
random draws and trig stand-ins exact at angle 0, leg 0 of the reseed has
every joint at (150, 50) = bodyCentre + homeOffset(0), and two reseeds with
different draws place it identically. -/
theorem c5_witness :
    (Pt.mk 150 50) =
      ⟨200 / 2 + (Leg.init (fun _ => (1 : ℚ)) (fun _ => (0 : ℚ)) 100 50 10 15 0 50).homeOffset.x,
       100 / 2 + (Leg.init (fun _ => (1 : ℚ)) (fun _ => (0 : ℚ)) 100 50 10 15 0 50).homeOffset.y⟩ := by
  have hmem : (resizeLegs (fun _ => 1) (fun _ => 0) 3 200 100 (fun _ => 0)).get? 0
      = some (Leg.init (fun _ => (1 : ℚ)) (fun _ => (0 : ℚ)) 100 50 10 15 0 50) := by
    rw [resizeLegs, show List.range 7 = [0, 1, 2, 3, 4, 5, 6] from rfl]
    simp only [List.map_cons, List.get?_cons_zero]
    norm_num
  have hmem' : (resizeLegs (fun _ => 1) (fun _ => 0) 3 200 100 (fun _ => 1 / 2)).get? 0
      = some (Leg.init (fun _ => (1 : ℚ)) (fun _ => (0 : ℚ)) 100 50 12 (35 / 2) 0 50) := by
    rw [resizeLegs, show List.range 7 = [0, 1, 2, 3, 4, 5, 6] from rfl]
    simp only [List.map_cons, List.get?_cons_zero]
    norm_num [show Int.toNat 2 = 2 from rfl]
  have h := (c5_reseed_placement (fun _ => 1) (fun _ => 0) 3 200 100
      (fun _ => 0) (fun _ => 1 / 2)).2.2 0 _ hmem _ hmem'
  exact h.2.1 ⟨150, 50⟩ (by norm_num [Leg.init, List.mem_replicate])

/-- C5: refuted as stated ("every joint ... reseeded at the body's current
position").  With viewport 200 × 100 the body centre is (100, 50); leg 0 of
the Heptapod reseed (angle 0, base distance 50) has ALL of its joints
seeded at (150, 50) — the leg's home point, 50 away from the body.  The trig
stand-ins agree with the true cos/sin at the inspected leg's angle 0. -/
theorem c5_not_at_body_cex :
    ((resizeLegs (fun _ => 1) (fun _ => 0) 3 200 100 (fun _ => 0)).get? 0).map
        (fun l => l.segments) = some (List.replicate 10 ⟨150, 50⟩) ∧
    (Pt.mk 150 50) ≠ ⟨100, 50⟩ ∧ (100 : ℚ) = 200 / 2 ∧ (50 : ℚ) = 100 / 2 := by
  have hmem : (resizeLegs (fun _ => 1) (fun _ => 0) 3 200 100 (fun _ => 0)).get? 0
      = some (Leg.init (fun _ => (1 : ℚ)) (fun _ => (0 : ℚ)) 100 50 10 15 0 50) := by
    rw [resizeLegs, show List.range 7 = [0, 1, 2, 3, 4, 5, 6] from rfl]
    simp only [List.map_cons, List.get?_cons_zero]
    norm_num
  refine ⟨?_, ?_, by norm_num, by norm_num⟩
  · rw [hmem]
    norm_num [Leg.init]
  · intro h
    rw [Pt.mk.injEq] at h
    norm_num at h
